import Mathlib

/-!
Verification of the JSML element-builder library (src/JSML.js).

The development shallowly embeds the library's data model and operations:

* `Node`/`Child` mirror `ElementBuilder` (and `FragmentBuilder`, via the
  `isFragment` discriminant): tag, self-closing flag, attribute list in
  insertion order, and ordered children (literal text or nested builder).
* `Arg` classifies one invocation argument the way
  `ElementBuilder.prototype.parse` does at runtime: `null`/`undefined`,
  array, plain attribute object, callable element (a function carrying a
  wrapped builder), or any other literal.  Note that in the source the
  explicit callable-element branch of `parse` is commented out, so a
  callable element reaches the final `else` branch and is pushed into
  `_children`; the renderers later distinguish it via `__isCallableElement`.
  `Child.node` models exactly that stored handle.
* `parseItem`/`parseSeq` embed `parse` and the `forEach` loop of
  `callableElement`; a thrown `SyntaxError("Bad argument: ...")` becomes an
  `Err.invalidArgument` result carried next to the partially mutated node.
* `nodeHtml` embeds `html` (`_openTag`/`_innerHTML`/`_closeTag`, pushing
  string fragments into an array that is joined at the end) together with
  the `FragmentBuilder.html` override.
* `DomNode` is the abstract external document API (create element, set
  attribute, create text node, create document fragment, append child) and
  `nodeDom` embeds `dom` (`_domElement`/`_domChildren`) together with the
  `FragmentBuilder._domElement` override.
-/

/-- The two JavaScript absence-of-value sentinels rejected by `parse`. -/
inductive NullKind where
  | jsNull
  | jsUndefined
deriving DecidableEq, Repr

/-- String form of the sentinel, as concatenated into the thrown message. -/
def nullName : NullKind → String
  | NullKind.jsNull => "null"
  | NullKind.jsUndefined => "undefined"

/-- An attribute value: either a proper string or the JavaScript `null`
"no-value" sentinel (`_openTag` checks `!== null` before emitting `="..."`). -/
inductive AttrVal where
  | nullv
  | str (s : String)
deriving DecidableEq, Repr

/-- The single error kind of the library: `parse` throws
`SyntaxError("Bad argument: " + item)` on `null`/`undefined`; the spec calls
this error `InvalidArgument`. -/
inductive Err where
  | invalidArgument (msg : String)
deriving DecidableEq, Repr

mutual
/-- State of one `ElementBuilder` (or `FragmentBuilder`, when `isFragment`):
`_tag`, `_isSelfClosing`, `_attrs` (insertion-ordered), `_children`.  A
`null` `_attrs`/`_children` field is represented by the empty list. -/
inductive Node where
  | mk (isFragment : Bool) (tag : String) (selfClosing : Bool)
       (attrs : List (String × AttrVal)) (children : List Child)

/-- One stored entry of `_children`: a literal (kept as its string form) or
a callable element wrapping a builder. -/
inductive Child where
  | lit (s : String)
  | node (b : Node)
end

def Node.isFragment : Node → Bool
  | Node.mk f _ _ _ _ => f

def Node.tag : Node → String
  | Node.mk _ t _ _ _ => t

def Node.selfClosing : Node → Bool
  | Node.mk _ _ sc _ _ => sc

def Node.attrs : Node → List (String × AttrVal)
  | Node.mk _ _ _ a _ => a

def Node.children : Node → List Child
  | Node.mk _ _ _ _ c => c

/-- JavaScript object property assignment `this._attrs[k] = v`: an existing
key keeps its enumeration position and gets the new value; a new key is
appended at the end. -/
def insertAttr : List (String × AttrVal) → String × AttrVal → List (String × AttrVal)
  | [], p => [p]
  | (k, v) :: rest, (k1, v1) =>
      if k = k1 then (k, v1) :: rest else (k, v) :: insertAttr rest (k1, v1)

/-- Runtime classification of one argument of a handle invocation, mirroring
the type tests of `parse`: `null`/`undefined`, `Array.isArray`, a plain
object (`typeof item === "object"`, read as an insertion-ordered key/value
list), a callable element (`typeof === "function"` with a `build`), or any
other literal (kept as its string form). -/
inductive Arg where
  | nothing (k : NullKind)
  | seq (items : List Arg)
  | attrObj (pairs : List (String × AttrVal))
  | handle (b : Node)
  | lit (s : String)

mutual
/-- Embedding of `ElementBuilder.prototype.parse` for one item: `null`/
`undefined` throws, an array is classified element by element, an attribute
object is merged pair by pair into `_attrs`, anything else is pushed onto
`_children`. -/
def parseItem : Node → Arg → Node × Option Err
  | n, Arg.nothing k =>
      (n, some (Err.invalidArgument ("Bad argument: " ++ nullName k)))
  | n, Arg.seq items => parseSeq n items
  | Node.mk f t sc attrs children, Arg.attrObj pairs =>
      (Node.mk f t sc (pairs.foldl insertAttr attrs) children, none)
  | Node.mk f t sc attrs children, Arg.handle b =>
      (Node.mk f t sc attrs (children ++ [Child.node b]), none)
  | Node.mk f t sc attrs children, Arg.lit s =>
      (Node.mk f t sc attrs (children ++ [Child.lit s]), none)
  termination_by structural _ a => a

/-- Embedding of the left-to-right `forEach(parse)` loop shared by
`callableElement` (over `arguments`) and the array branch of `parse`; a
thrown error aborts the loop, keeping the effects already applied. -/
def parseSeq : Node → List Arg → Node × Option Err
  | n, [] => (n, none)
  | n, a :: rest =>
      match parseItem n a with
      | (n1, none) => parseSeq n1 rest
      | (n1, some e) => (n1, some e)
  termination_by structural _ l => l
end

/-- The string fragments `_openTag` pushes for one attribute: a space and
the name, then `="value"` unless the value is the `null` sentinel. -/
def attrFrags : String × AttrVal → List String
  | (k, AttrVal.nullv) => [" " ++ k]
  | (k, AttrVal.str s) => [" " ++ k, "=\"" ++ s ++ "\""]

/-- Embedding of `_openTag`: `["<", tag]`, the attribute fragments in stored
order, then `"/>"` or `">"`. -/
def openTagArr (t : String) (sc : Bool) (attrs : List (String × AttrVal)) : List String :=
  ["<", t] ++ attrs.flatMap attrFrags ++ [if sc then "/>" else ">"]

/-- Embedding of `_closeTag`: appends `"</tag>"` unless self-closing. -/
def closeTagArr (t : String) (sc : Bool) (arr : List String) : List String :=
  if sc then arr else arr ++ ["</" ++ t ++ ">"]

mutual
/-- Embedding of `html` (join of `_closeTag(_innerHTML(_openTag()))`) and of
the `FragmentBuilder.html` override (join of `_innerHTML([])`); the inner
`if` is `_innerHTML`'s check that a self-closing builder contributes no
child fragments. -/
def nodeHtml : Node → String
  | Node.mk isFrag t sc attrs children =>
      if isFrag then String.join (if sc then [] else childrenHtml children)
      else
        String.join
          (closeTagArr t sc
            (openTagArr t sc attrs ++ (if sc then [] else childrenHtml children)))
  termination_by structural n => n

def childrenHtml : List Child → List String
  | [] => []
  | c :: cs => childHtml c :: childrenHtml cs
  termination_by structural l => l

/-- One child's fragment: a callable element renders recursively via
`ch.build.html()`, a literal is pushed as-is. -/
def childHtml : Child → String
  | Child.lit s => s
  | Child.node b => nodeHtml b
  termination_by structural c => c
end

/-- Embedding of `_innerHTML`: nothing when self-closing, otherwise the
children's fragments in order. -/
def innerList (sc : Bool) (children : List Child) : List String :=
  if sc then [] else childrenHtml children

/-- The abstract external document-construction API consumed by `dom`:
create-element-by-tag (with its set attributes), create-text-node,
create-document-fragment, append-child (modelled as list extension). -/
inductive DomNode where
  | element (tag : String) (attrs : List (String × AttrVal)) (children : List DomNode)
  | text (s : String)
  | fragment (children : List DomNode)

mutual
/-- Embedding of `dom` (`_domChildren(_domElement())`): an element carrying
the tag and every stored attribute verbatim, or — via the
`FragmentBuilder._domElement` override — a document fragment with no tag and
no attributes; the inner `if` is `_domChildren`'s check that a self-closing
builder gets no children appended. -/
def nodeDom : Node → DomNode
  | Node.mk isFrag t sc attrs children =>
      if isFrag then DomNode.fragment (if sc then [] else childrenDom children)
      else DomNode.element t attrs (if sc then [] else childrenDom children)
  termination_by structural n => n

def childrenDom : List Child → List DomNode
  | [] => []
  | c :: cs => childDom c :: childrenDom cs
  termination_by structural l => l

/-- One appended child: a callable element recursively via
`ch.build.dom()`, a literal via `document.createTextNode`. -/
def childDom : Child → DomNode
  | Child.lit s => DomNode.text s
  | Child.node b => nodeDom b
  termination_by structural c => c
end

/-- Embedding of `_domChildren`'s child list: empty when self-closing. -/
def domKids (sc : Bool) (children : List Child) : List DomNode :=
  if sc then [] else childrenDom children

mutual
/-- Modelled from the spec: the linearization of a structural rendering to
text, used to compare the two renderers.  An element serializes with the
same open-tag/attribute/close-tag shape as the string renderer, where a
per-tag predicate `v` tells which tags are void (self-closing); a fragment
serializes as just its children; a text node as its content. -/
def linearize (v : String → Bool) : DomNode → String
  | DomNode.text s => s
  | DomNode.fragment ds => linearizeList v ds
  | DomNode.element t attrs ds =>
      String.join (["<", t] ++ attrs.flatMap attrFrags ++ [if v t then "/>" else ">"])
        ++ linearizeList v ds
        ++ (if v t then "" else "</" ++ t ++ ">")
  termination_by structural d => d

def linearizeList (v : String → Bool) : List DomNode → String
  | [] => ""
  | d :: ds => linearize v d ++ linearizeList v ds
  termination_by structural l => l
end

mutual
/-- The node's self-closing flags agree everywhere with the per-tag void
predicate `v` (fragments put no constraint on their unused tag). -/
def scConsistent (v : String → Bool) : Node → Bool
  | Node.mk isFrag t sc _ children =>
      (if isFrag then true else v t == sc) && childrenConsistent v children
  termination_by structural n => n

def childrenConsistent (v : String → Bool) : List Child → Bool
  | [] => true
  | c :: cs => childConsistent v c && childrenConsistent v cs
  termination_by structural l => l

def childConsistent (v : String → Bool) : Child → Bool
  | Child.lit _ => true
  | Child.node b => scConsistent v b
  termination_by structural c => c
end

/-- Embedding of `JSML.prototype._parseTag`: a trailing `/` marks the tag
self-closing and is stripped from the stored identifier. -/
def parseTagSpec (tag : String) : String × Bool :=
  if tag.takeRight 1 = "/" then (tag.dropRight 1, true) else (tag, false)

/-- Embedding of `JSML.prototype.create` (and of the body of each getter
registered by `tags`): a fresh `ElementBuilder` for the parsed tag spec. -/
def create (tag : String) : Node :=
  Node.mk false (parseTagSpec tag).1 (parseTagSpec tag).2 [] []

/-- The fresh builder produced by one access of a registered tag getter. -/
def freshElement (t : String) (sc : Bool) : Node := Node.mk false t sc [] []

/-- The fresh builder produced by one access of the `frag` getter:
`new FragmentBuilder().callableElement()`. -/
def freshFragment : Node := Node.mk true "" false [] []

/-- A heap of builder objects, indexed by allocation order, making the
identity of handles observable: each getter access allocates a new object. -/
structure Store where
  next : Nat
  mem : Nat → Node

def Store.getN (st : Store) (h : Nat) : Node := st.mem h

def Store.setN (st : Store) (h : Nat) (n : Node) : Store :=
  ⟨st.next, fun i => if i = h then n else st.mem i⟩

def Store.alloc (st : Store) (n : Node) : Store × Nat :=
  (⟨st.next + 1, fun i => if i = st.next then n else st.mem i⟩, st.next)

/-- One access of a tag getter registered by `tags`: the getter body runs
`new ElementBuilder(name, sc).callableElement()`, allocating a brand-new
object and returning its handle. -/
def accessTagGetter (st : Store) (t : String) (sc : Bool) : Store × Nat :=
  st.alloc (freshElement t sc)

/-- One access of the `frag` getter: a brand-new `FragmentBuilder`. -/
def accessFragGetter (st : Store) : Store × Nat :=
  st.alloc freshFragment

/-- Embedding of one invocation of a callable handle (`callableElement`'s
inner function): classify every argument left to right against the wrapped
builder, then `return self` — the very same handle. -/
def invokeH (st : Store) (h : Nat) (args : List Arg) : Store × Nat × Option Err :=
  let r := parseSeq (st.getN h) args
  (st.setN h r.1, h, r.2)

def htmlH (st : Store) (h : Nat) : String := nodeHtml (st.getN h)

/-- Invocation at the level of the wrapped builder's state. -/
def invoke (n : Node) (args : List Arg) : Node × Option Err := parseSeq n args

/-- One step of a chain of invocations: a pending error is kept (the later
calls of a throwing chain never run), otherwise the next call's arguments
are classified. -/
def callStep : Node × Option Err → List Arg → Node × Option Err
  | (n1, none), call => parseSeq n1 call
  | (n1, some e), _ => (n1, some e)

/-- A sequence of chained invocations `handle(a1...)(b1...)...`; a thrown
error aborts the chain (the later calls never run). -/
def processCalls (n : Node) (calls : List (List Arg)) : Node × Option Err :=
  calls.foldl callStep (n, none)

mutual
/-- Flattening of one argument: arrays disappear, their elements taking the
argument's place in order. -/
def flattenArg : Arg → List Arg
  | Arg.seq items => flattenList items
  | Arg.nothing k => [Arg.nothing k]
  | Arg.attrObj pairs => [Arg.attrObj pairs]
  | Arg.handle b => [Arg.handle b]
  | Arg.lit s => [Arg.lit s]
  termination_by structural a => a

def flattenList : List Arg → List Arg
  | [] => []
  | a :: rest => flattenArg a ++ flattenList rest
  termination_by structural l => l
end

mutual
/-- No `null`/`undefined` occurs in the argument, at any nesting depth. -/
def argOk : Arg → Bool
  | Arg.nothing _ => false
  | Arg.seq items => argsOk items
  | Arg.attrObj _ => true
  | Arg.handle _ => true
  | Arg.lit _ => true
  termination_by structural a => a

def argsOk : List Arg → Bool
  | [] => true
  | a :: rest => argOk a && argsOk rest
  termination_by structural l => l
end

mutual
/-- The children contributed by one argument, in flattened order. -/
def argChildren : Arg → List Child
  | Arg.seq items => argsChildren items
  | Arg.handle b => [Child.node b]
  | Arg.lit s => [Child.lit s]
  | Arg.nothing _ => []
  | Arg.attrObj _ => []
  termination_by structural a => a

def argsChildren : List Arg → List Child
  | [] => []
  | a :: rest => argChildren a ++ argsChildren rest
  termination_by structural l => l
end

mutual
/-- The attribute pairs contributed by one argument, in flattened order. -/
def argPairs : Arg → List (String × AttrVal)
  | Arg.seq items => argsPairs items
  | Arg.attrObj pairs => pairs
  | Arg.nothing _ => []
  | Arg.handle _ => []
  | Arg.lit _ => []
  termination_by structural a => a

def argsPairs : List Arg → List (String × AttrVal)
  | [] => []
  | a :: rest => argPairs a ++ argsPairs rest
  termination_by structural l => l
end

/-- The effect of one error-free argument on the builder's state: attribute
pairs merged in order, children appended in order. -/
def applyArg : Node → Arg → Node
  | Node.mk f t sc attrs children, a =>
      Node.mk f t sc ((argPairs a).foldl insertAttr attrs) (children ++ argChildren a)

/-- The serialized text of one attribute as the spec states it: a space and
the name, then the quoted value unless the value is the no-value sentinel. -/
def attrText : String × AttrVal → String
  | (k, AttrVal.nullv) => " " ++ k
  | (k, AttrVal.str s) => " " ++ k ++ "=\"" ++ s ++ "\""

/-- The builder of `img({src: "a.png"})({alt: "pic"})`: two chained calls. -/
def imgChained : Node :=
  (parseSeq (parseSeq (create "img/")
    [Arg.attrObj [("src", AttrVal.str "a.png")]]).1
    [Arg.attrObj [("alt", AttrVal.str "pic")]]).1

/-- The builder of `img({src: "a.png", alt: "pic"})`: one call. -/
def imgSingle : Node :=
  (parseSeq (create "img/")
    [Arg.attrObj [("src", AttrVal.str "a.png"), ("alt", AttrVal.str "pic")]]).1

/-- The builder of `ul([li, li, li])`. -/
def ulNested : Node :=
  (parseSeq (create "ul")
    [Arg.seq [Arg.handle (create "li"), Arg.handle (create "li"),
      Arg.handle (create "li")]]).1

/-- The builder of `ul(li)(li)(li)`. -/
def ulChained : Node :=
  (processCalls (create "ul")
    [[Arg.handle (create "li")], [Arg.handle (create "li")],
      [Arg.handle (create "li")]]).1

/-- The builder of `ul(li, li, li)`. -/
def ulFlat : Node :=
  (parseSeq (create "ul")
    [Arg.handle (create "li"), Arg.handle (create "li"),
      Arg.handle (create "li")]).1

/-- Sample valid argument list mixing a literal, an array, a handle and an
attribute object. -/
def sampleArgs : List Arg :=
  [Arg.lit "x",
   Arg.seq [Arg.handle (create "li"), Arg.attrObj [("id", AttrVal.str "1")]],
   Arg.lit "y"]

/-- Sample chained calls passing overlapping attribute objects. -/
def sampleCalls : List (List Arg) :=
  [[Arg.attrObj [("src", AttrVal.str "a.png")]],
   [Arg.attrObj [("alt", AttrVal.str "pic"), ("src", AttrVal.str "b.png")]]]

/-- Sample valid argument prefix before a failing argument. -/
def samplePre : List Arg := [Arg.lit "a", Arg.attrObj [("id", AttrVal.str "7")]]

/-- Sample failing argument: an array with a `null` at depth one. -/
def sampleBad : Arg := Arg.seq [Arg.lit "b", Arg.nothing NullKind.jsNull, Arg.lit "c"]

/-- Sample arguments after the failing one. -/
def samplePost : List Arg := [Arg.lit "d", Arg.handle (create "li")]

/-- Sample tree with a void `br` child, for comparing the two renderers. -/
def sampleTree : Node :=
  (parseSeq (create "body")
    [Arg.attrObj [("id", AttrVal.str "x"), ("hidden", AttrVal.nullv)],
     Arg.handle (create "br/"), Arg.lit "text"]).1

/-- Void-tag predicate matching `sampleTree`: only `br` is self-closing. -/
def sampleVoid : String → Bool := fun t => t == "br"

mutual
/-- The string renderer with the receiver state threaded explicitly: every
step of `html` is translated together with the builder state it leaves
behind, so that freedom from mutation is a provable statement rather than a
typing convention.  `_openTag`/`_closeTag` only read the receiver; the
child loop of `_innerHTML` re-threads each child through its own render. -/
def nodeHtmlM : Node → String × Node
  | Node.mk isFrag t sc attrs children =>
      let r := if sc then (([] : List String), children) else childrenHtmlM children
      if isFrag then (String.join r.1, Node.mk isFrag t sc attrs r.2)
      else
        (String.join (closeTagArr t sc (openTagArr t sc attrs ++ r.1)),
         Node.mk isFrag t sc attrs r.2)
  termination_by structural n => n

def childrenHtmlM : List Child → List String × List Child
  | [] => ([], [])
  | c :: cs =>
      let r := childHtmlM c
      let rs := childrenHtmlM cs
      (r.1 :: rs.1, r.2 :: rs.2)
  termination_by structural l => l

def childHtmlM : Child → String × Child
  | Child.lit s => (s, Child.lit s)
  | Child.node b =>
      let r := nodeHtmlM b
      (r.1, Child.node r.2)
  termination_by structural c => c
end

mutual
/-- The structural renderer with the receiver state threaded explicitly,
mirroring `dom` step by step like `nodeHtmlM` mirrors `html`. -/
def nodeDomM : Node → DomNode × Node
  | Node.mk isFrag t sc attrs children =>
      let r := if sc then (([] : List DomNode), children) else childrenDomM children
      if isFrag then (DomNode.fragment r.1, Node.mk isFrag t sc attrs r.2)
      else (DomNode.element t attrs r.1, Node.mk isFrag t sc attrs r.2)
  termination_by structural n => n

def childrenDomM : List Child → List DomNode × List Child
  | [] => ([], [])
  | c :: cs =>
      let r := childDomM c
      let rs := childrenDomM cs
      (r.1 :: rs.1, r.2 :: rs.2)
  termination_by structural l => l

def childDomM : Child → DomNode × Child
  | Child.lit s => (DomNode.text s, Child.lit s)
  | Child.node b =>
      let r := nodeDomM b
      (r.1, Child.node r.2)
  termination_by structural c => c
end


/-! Helper lemmas. -/

theorem stringJoin_append (a b : List String) :
    String.join (a ++ b) = String.join a ++ String.join b := by
  apply String.ext; simp

theorem stringJoin_single (s : String) : String.join [s] = s := by
  apply String.ext; simp

theorem parseSeq_append (n : Node) (l1 l2 : List Arg) :
    parseSeq n (l1 ++ l2) =
      match parseSeq n l1 with
      | (n1, none) => parseSeq n1 l2
      | (n1, some e) => (n1, some e) := by
  induction l1 generalizing n with
  | nil => simp [parseSeq]
  | cons a rest ih =>
      simp only [List.cons_append, parseSeq]
      rcases h : parseItem n a with ⟨n1, e⟩
      cases e with
      | none => simp [ih]
      | some e1 => simp

theorem applyArgs_foldl (l : List Arg) (f : Bool) (t : String) (sc : Bool)
    (attrs : List (String × AttrVal)) (ch : List Child) :
    l.foldl applyArg (Node.mk f t sc attrs ch) =
      Node.mk f t sc ((argsPairs l).foldl insertAttr attrs) (ch ++ argsChildren l) := by
  induction l generalizing attrs ch with
  | nil => simp [argsPairs, argsChildren]
  | cons a rest ih =>
      simp only [List.foldl_cons, applyArg, argsPairs, argsChildren, ih,
        List.foldl_append, List.append_assoc]

mutual
theorem parseItem_ok : ∀ (n : Node) (a : Arg), argOk a = true →
    parseItem n a = (applyArg n a, none)
  | n, Arg.nothing k => by simp [argOk]
  | n, Arg.seq items => by
      intro h
      rcases n with ⟨f, t, sc, attrs, ch⟩
      rw [parseItem, parseSeq_ok _ _ (by simpa [argOk] using h), applyArgs_foldl]
      simp [applyArg, argPairs, argChildren]
  | Node.mk f t sc attrs ch, Arg.attrObj pairs => by
      intro h
      simp [parseItem, applyArg, argPairs, argChildren]
  | Node.mk f t sc attrs ch, Arg.handle b => by
      intro h
      simp [parseItem, applyArg, argPairs, argChildren]
  | Node.mk f t sc attrs ch, Arg.lit s => by
      intro h
      simp [parseItem, applyArg, argPairs, argChildren]
  termination_by structural _ a => a

theorem parseSeq_ok : ∀ (n : Node) (l : List Arg), argsOk l = true →
    parseSeq n l = (l.foldl applyArg n, none)
  | n, [] => by simp [parseSeq]
  | n, a :: rest => by
      intro h
      have ha : argOk a = true := by
        have := h; simp [argsOk, Bool.and_eq_true] at this; exact this.1
      have hrest : argsOk rest = true := by
        have := h; simp [argsOk, Bool.and_eq_true] at this; exact this.2
      rw [parseSeq, parseItem_ok n a ha]
      simpa using parseSeq_ok (applyArg n a) rest hrest
  termination_by structural _ l => l
end

mutual
theorem parseItem_err : ∀ (n : Node) (a : Arg),
    (parseItem n a).2.isSome = !argOk a
  | Node.mk _ _ _ _ _, Arg.nothing _ => rfl
  | Node.mk f t sc attrs ch, Arg.seq items => parseSeq_err (Node.mk f t sc attrs ch) items
  | Node.mk _ _ _ _ _, Arg.attrObj _ => rfl
  | Node.mk _ _ _ _ _, Arg.handle _ => rfl
  | Node.mk _ _ _ _ _, Arg.lit _ => rfl
  termination_by structural _ a => a

theorem parseSeq_err : ∀ (n : Node) (l : List Arg),
    (parseSeq n l).2.isSome = !argsOk l
  | Node.mk _ _ _ _ _, [] => rfl
  | n, a :: rest => by
      show (match parseItem n a with
            | (n1, none) => parseSeq n1 rest
            | (n1, some e) => (n1, some e)).2.isSome = !(argOk a && argsOk rest)
      rcases h : parseItem n a with ⟨n1, e⟩
      have he : e.isSome = !argOk a := by
        have hh := parseItem_err n a
        rw [h] at hh
        exact hh
      cases e with
      | none =>
          have ha : argOk a = true := by simpa using he.symm
          rw [ha]
          simpa using parseSeq_err n1 rest
      | some e1 =>
          have ha : argOk a = false := by simpa using he.symm
          rw [ha]
          simp
  termination_by structural _ l => l
end

mutual
theorem parseSeq_flattenArg : ∀ (n : Node) (a : Arg),
    parseSeq n (flattenArg a) = parseItem n a
  | Node.mk _ _ _ _ _, Arg.nothing _ => rfl
  | Node.mk f t sc attrs ch, Arg.seq items => parseSeq_flattenList (Node.mk f t sc attrs ch) items
  | Node.mk _ _ _ _ _, Arg.attrObj _ => rfl
  | Node.mk _ _ _ _ _, Arg.handle _ => rfl
  | Node.mk _ _ _ _ _, Arg.lit _ => rfl
  termination_by structural _ a => a

theorem parseSeq_flattenList : ∀ (n : Node) (l : List Arg),
    parseSeq n (flattenList l) = parseSeq n l
  | Node.mk _ _ _ _ _, [] => rfl
  | n, a :: rest => by
      show parseSeq n (flattenArg a ++ flattenList rest) = parseSeq n (a :: rest)
      rw [parseSeq_append, parseSeq_flattenArg n a]
      show _ = (match parseItem n a with
                | (n1, none) => parseSeq n1 rest
                | (n1, some e) => (n1, some e))
      rcases h : parseItem n a with ⟨n1, e⟩
      cases e with
      | none => exact parseSeq_flattenList n1 rest
      | some e1 => rfl
  termination_by structural _ l => l
end

theorem lookup_insertAttr (l : List (String × AttrVal)) (p : String × AttrVal) (k : String) :
    List.lookup k (insertAttr l p) = if k = p.1 then some p.2 else List.lookup k l := by
  rcases p with ⟨k1, v1⟩
  induction l with
  | nil =>
      by_cases hk : k = k1
      · subst hk
        simp [insertAttr, List.lookup_cons]
      · have hb : (k == k1) = false := beq_eq_false_iff_ne.mpr hk
        simp [insertAttr, List.lookup_cons, hb, hk]
  | cons q rest ih =>
      rcases q with ⟨k0, v0⟩
      by_cases h0 : k0 = k1
      · subst h0
        by_cases hk : k = k0
        · subst hk
          simp [insertAttr, List.lookup_cons]
        · have hb : (k == k0) = false := beq_eq_false_iff_ne.mpr hk
          simp [insertAttr, List.lookup_cons, hb, hk]
      · by_cases hk : k = k0
        · subst hk
          have hb : (k == k1) = false := beq_eq_false_iff_ne.mpr (fun h => h0 (by simp [h]))
          simp [insertAttr, h0, List.lookup_cons, Ne.symm h0]
        · have hb : (k == k0) = false := beq_eq_false_iff_ne.mpr hk
          simp [insertAttr, h0, List.lookup_cons, hb, hk, ih]

theorem lookup_foldl_insertAttr (ps : List (String × AttrVal))
    (l : List (String × AttrVal)) (k : String) :
    List.lookup k (ps.foldl insertAttr l) =
      (List.lookup k ps.reverse).or (List.lookup k l) := by
  induction ps generalizing l with
  | nil => simp
  | cons p rest ih =>
      rcases p with ⟨k1, v1⟩
      simp only [List.foldl_cons, List.reverse_cons, ih, List.lookup_append,
        lookup_insertAttr]
      by_cases hk : k = k1
      · subst hk
        cases List.lookup k rest.reverse <;>
          simp [List.lookup_cons, Option.or]
      · have hb : (k == k1) = false := beq_eq_false_iff_ne.mpr hk
        cases h : List.lookup k rest.reverse <;>
          simp [List.lookup_cons, hb, hk, Option.or]

theorem stringJoin_cons (a : String) (l : List String) :
    String.join (a :: l) = a ++ String.join l := by
  apply String.ext; simp

theorem stringJoin_nil : String.join [] = "" := rfl

mutual
theorem linDom_node (v : String → Bool) : ∀ (n : Node), scConsistent v n = true →
    linearize v (nodeDom n) = nodeHtml n
  | Node.mk isFrag t sc attrs ch => by
      intro h
      have h1 : ((if isFrag then true else v t == sc) && childrenConsistent v ch) = true := h
      rw [Bool.and_eq_true] at h1
      rcases h1 with ⟨hfst, hch⟩
      cases isFrag with
      | true =>
          show linearizeList v (if sc then [] else childrenDom ch) =
            String.join (if sc then [] else childrenHtml ch)
          cases sc with
          | true => rfl
          | false => exact linDom_children v ch hch
      | false =>
          have hv : v t = sc := by simpa using hfst
          show String.join (["<", t] ++ attrs.flatMap attrFrags ++ [if v t then "/>" else ">"])
                ++ linearizeList v (if sc then [] else childrenDom ch)
                ++ (if v t then "" else "</" ++ t ++ ">") =
              String.join (closeTagArr t sc
                (openTagArr t sc attrs ++ (if sc then [] else childrenHtml ch)))
          rw [hv]
          cases sc with
          | true =>
              show String.join (["<", t] ++ attrs.flatMap attrFrags ++ ["/>"]) ++ "" ++ "" =
                String.join (closeTagArr t true (openTagArr t true attrs ++ []))
              simp [closeTagArr, openTagArr]
          | false =>
              show String.join (["<", t] ++ attrs.flatMap attrFrags ++ [">"])
                    ++ linearizeList v (childrenDom ch) ++ ("</" ++ t ++ ">") =
                  String.join (closeTagArr t false (openTagArr t false attrs
                    ++ childrenHtml ch))
              rw [linDom_children v ch hch]
              simp [closeTagArr, openTagArr, stringJoin_append, stringJoin_single,
                stringJoin_cons, stringJoin_nil, String.append_assoc, List.append_assoc]

theorem linDom_children (v : String → Bool) : ∀ (cs : List Child),
    childrenConsistent v cs = true →
    linearizeList v (childrenDom cs) = String.join (childrenHtml cs)
  | [] => by intro h; rfl
  | c :: cs => by
      intro h
      have h1 : (childConsistent v c && childrenConsistent v cs) = true := h
      rw [Bool.and_eq_true] at h1
      rcases h1 with ⟨hc, hcs⟩
      show linearize v (childDom c) ++ linearizeList v (childrenDom cs) =
        String.join (childHtml c :: childrenHtml cs)
      rw [linDom_child v c hc, linDom_children v cs hcs, stringJoin_cons]

theorem linDom_child (v : String → Bool) : ∀ (c : Child),
    childConsistent v c = true →
    linearize v (childDom c) = childHtml c
  | Child.lit s => by intro h; rfl
  | Child.node b => by intro h; exact linDom_node v b h
end

mutual
theorem nodeHtmlM_eq : ∀ (n : Node), nodeHtmlM n = (nodeHtml n, n)
  | Node.mk isFrag t sc attrs ch => by
      cases sc with
      | true => cases isFrag <;> rfl
      | false =>
          cases isFrag with
          | true =>
              show (String.join (childrenHtmlM ch).1,
                  Node.mk true t false attrs (childrenHtmlM ch).2) =
                (String.join (childrenHtml ch), Node.mk true t false attrs ch)
              rw [childrenHtmlM_eq ch]
          | false =>
              show (String.join (closeTagArr t false
                    (openTagArr t false attrs ++ (childrenHtmlM ch).1)),
                  Node.mk false t false attrs (childrenHtmlM ch).2) =
                (String.join (closeTagArr t false
                    (openTagArr t false attrs ++ childrenHtml ch)),
                  Node.mk false t false attrs ch)
              rw [childrenHtmlM_eq ch]

theorem childrenHtmlM_eq : ∀ (cs : List Child), childrenHtmlM cs = (childrenHtml cs, cs)
  | [] => rfl
  | c :: cs => by
      show ((childHtmlM c).1 :: (childrenHtmlM cs).1,
          (childHtmlM c).2 :: (childrenHtmlM cs).2) =
        (childHtml c :: childrenHtml cs, c :: cs)
      rw [childHtmlM_eq c, childrenHtmlM_eq cs]

theorem childHtmlM_eq : ∀ (c : Child), childHtmlM c = (childHtml c, c)
  | Child.lit s => rfl
  | Child.node b => by
      show ((nodeHtmlM b).1, Child.node (nodeHtmlM b).2) = (nodeHtml b, Child.node b)
      rw [nodeHtmlM_eq b]
end

mutual
theorem nodeDomM_eq : ∀ (n : Node), nodeDomM n = (nodeDom n, n)
  | Node.mk isFrag t sc attrs ch => by
      cases sc with
      | true => cases isFrag <;> rfl
      | false =>
          cases isFrag with
          | true =>
              show (DomNode.fragment (childrenDomM ch).1,
                  Node.mk true t false attrs (childrenDomM ch).2) =
                (DomNode.fragment (childrenDom ch), Node.mk true t false attrs ch)
              rw [childrenDomM_eq ch]
          | false =>
              show (DomNode.element t attrs (childrenDomM ch).1,
                  Node.mk false t false attrs (childrenDomM ch).2) =
                (DomNode.element t attrs (childrenDom ch), Node.mk false t false attrs ch)
              rw [childrenDomM_eq ch]

theorem childrenDomM_eq : ∀ (cs : List Child), childrenDomM cs = (childrenDom cs, cs)
  | [] => rfl
  | c :: cs => by
      show ((childDomM c).1 :: (childrenDomM cs).1,
          (childDomM c).2 :: (childrenDomM cs).2) =
        (childDom c :: childrenDom cs, c :: cs)
      rw [childDomM_eq c, childrenDomM_eq cs]

theorem childDomM_eq : ∀ (c : Child), childDomM c = (childDom c, c)
  | Child.lit s => rfl
  | Child.node b => by
      show ((nodeDomM b).1, Child.node (nodeDomM b).2) = (nodeDom b, Child.node b)
      rw [nodeDomM_eq b]
end

theorem children_parseSeq_ok (n : Node) (l : List Arg) (h : argsOk l = true) :
    (parseSeq n l).1.children = n.children ++ argsChildren l := by
  rcases n with ⟨f, t, sc, attrs, ch⟩
  rw [parseSeq_ok _ _ h, applyArgs_foldl]
  rfl

theorem attrs_parseSeq_ok (n : Node) (l : List Arg) (h : argsOk l = true) :
    (parseSeq n l).1.attrs = (argsPairs l).foldl insertAttr n.attrs := by
  rcases n with ⟨f, t, sc, attrs, ch⟩
  rw [parseSeq_ok _ _ h, applyArgs_foldl]
  rfl

theorem callStep_absorb (calls : List (List Arg)) (n1 : Node) (e : Err) :
    calls.foldl callStep (n1, some e) = (n1, some e) := by
  induction calls with
  | nil => rfl
  | cons c rest ih => simpa [callStep] using ih

theorem processCalls_eq_parseSeq (n : Node) (calls : List (List Arg)) :
    processCalls n calls = parseSeq n calls.flatten := by
  induction calls generalizing n with
  | nil => rfl
  | cons c rest ih =>
      show (c :: rest).foldl callStep (n, none) = parseSeq n (c ++ rest.flatten)
      rw [parseSeq_append]
      show rest.foldl callStep (callStep (n, none) c) =
        (match parseSeq n c with
          | (n1, none) => parseSeq n1 rest.flatten
          | (n1, some e) => (n1, some e))
      rcases hc : parseSeq n c with ⟨n1, e⟩
      have hstep : callStep (n, none) c = (n1, e) := by
        simpa [callStep] using hc
      rw [hstep]
      cases e with
      | none => exact ih n1
      | some e1 => exact callStep_absorb rest n1 e1

theorem join_attrFrags (attrs : List (String × AttrVal)) :
    String.join (attrs.flatMap attrFrags) = String.join (attrs.map attrText) := by
  induction attrs with
  | nil => rfl
  | cons p rest ih =>
      rcases p with ⟨k, v⟩
      cases v <;>
        simp [attrFrags, attrText, stringJoin_cons, stringJoin_append,
          String.append_assoc, ih]

/-! Claim theorems. -/

/-- C1: for every builder, the tree produced by the structural renderer
`dom()` is isomorphic to the string produced by `html()`: when the
structural output is linearized to text — with a per-tag void predicate
that agrees with the builders' self-closing flags — it reproduces the
same tag, the same attribute names and values in the same order, the same
child order and text content, and the identical self-closing and fragment
handling. -/
theorem dom_linearizes_to_html (v : String → Bool) (n : Node)
    (h : scConsistent v n = true) :
    linearize v (nodeDom n) = nodeHtml n :=
  linDom_node v n h

/-- Witness for C1 at a concrete tree with attributes, a void child and a
text child. -/
theorem dom_linearizes_to_html_witness :
    scConsistent sampleVoid sampleTree = true ∧
    linearize sampleVoid (nodeDom sampleTree) = nodeHtml sampleTree :=
  ⟨by decide, dom_linearizes_to_html sampleVoid sampleTree (by decide)⟩

/-- C2: every invocation of a callable handle returns that same handle, and
chained invocations accumulate exactly as one combined invocation; in
particular `img({src: "a.png"})({alt: "pic"})` and
`img({src: "a.png", alt: "pic"})` on a registered self-closing `img` render
to the identical string `<img src="a.png" alt="pic"/>`. -/
theorem invoke_returns_self_and_chains :
    (∀ (st : Store) (h : Nat) (args : List Arg), (invokeH st h args).2.1 = h) ∧
    (∀ (n : Node) (a1 a2 : List Arg),
      parseSeq n (a1 ++ a2) =
        match parseSeq n a1 with
        | (n1, none) => parseSeq n1 a2
        | (n1, some e) => (n1, some e)) ∧
    nodeHtml imgChained = nodeHtml imgSingle ∧
    nodeHtml imgSingle = "<img src=\"a.png\" alt=\"pic\"/>" :=
  ⟨fun _ _ _ => rfl, parseSeq_append, by decide, by decide⟩

/-- C3: children passed flat, nested inside arrays at arbitrary depth, or
split across chained calls yield the same children sequence — the flattened
left-to-right order of the literals and handles encountered; in particular
`ul([li, li, li])`, `ul(li)(li)(li)` and `ul(li, li, li)` render to
`<ul><li></li><li></li><li></li></ul>`. -/
theorem children_accumulate_flattened (n : Node) (args : List Arg)
    (h : argsOk args = true) :
    parseSeq n args = parseSeq n (flattenList args) ∧
    (parseSeq n args).1.children = n.children ++ argsChildren args ∧
    (∀ (m : Node) (calls : List (List Arg)),
      processCalls m calls = parseSeq m calls.flatten) ∧
    nodeHtml ulNested = "<ul><li></li><li></li><li></li></ul>" ∧
    nodeHtml ulChained = "<ul><li></li><li></li><li></li></ul>" ∧
    nodeHtml ulFlat = "<ul><li></li><li></li><li></li></ul>" :=
  ⟨(parseSeq_flattenList n args).symm, children_parseSeq_ok n args h,
    processCalls_eq_parseSeq, by decide, by decide, by decide⟩

/-- Witness for C3 at a concrete argument list mixing literals, a nested
array, a handle and an attribute object. -/
theorem children_accumulate_flattened_witness :
    argsOk sampleArgs = true ∧
    (parseSeq (create "ul") sampleArgs).1.children =
      (create "ul").children ++ argsChildren sampleArgs :=
  ⟨by decide,
    (children_accumulate_flattened (create "ul") sampleArgs (by decide)).2.1⟩

/-- C4: for every sequence of attribute objects passed to one handle — in
one call or across several chained calls — the final attribute mapping is
the left-to-right merge of all of them, a later value for a key
overwriting any earlier value stored for that key. -/
theorem attrs_merge_left_to_right (n : Node) (calls : List (List Arg))
    (h : argsOk calls.flatten = true) :
    (processCalls n calls).1.attrs =
      (argsPairs calls.flatten).foldl insertAttr n.attrs ∧
    ∀ k : String,
      List.lookup k (processCalls n calls).1.attrs =
        (List.lookup k (argsPairs calls.flatten).reverse).or
          (List.lookup k n.attrs) := by
  have h1 : (processCalls n calls).1.attrs =
      (argsPairs calls.flatten).foldl insertAttr n.attrs := by
    rw [processCalls_eq_parseSeq]
    exact attrs_parseSeq_ok n _ h
  refine ⟨h1, fun k => ?_⟩
  rw [h1, lookup_foldl_insertAttr]

/-- Witness for C4 at two chained calls with an overlapping `src` key. -/
theorem attrs_merge_left_to_right_witness :
    argsOk sampleCalls.flatten = true ∧
    (processCalls (create "img/") sampleCalls).1.attrs =
      (argsPairs sampleCalls.flatten).foldl insertAttr (create "img/").attrs :=
  ⟨by decide,
    (attrs_merge_left_to_right (create "img/") sampleCalls (by decide)).1⟩

/-- C5: an argument that is (or contains, at any array nesting depth) a
`null`/`undefined` makes the invocation fail synchronously with the
`InvalidArgument` error; the effects of the arguments classified before the
failing one remain applied, and no argument after the failing one in the
same call is processed. -/
theorem invalid_argument_aborts (n : Node) (pre : List Arg) (bad : Arg)
    (post : List Arg) (hpre : argsOk pre = true) (hbad : argOk bad = false) :
    (∃ s, (parseSeq n (pre ++ bad :: post)).2 = some (Err.invalidArgument s)) ∧
    (parseSeq n (pre ++ bad :: post)).1 = (parseItem (pre.foldl applyArg n) bad).1 ∧
    parseSeq n (pre ++ bad :: post) = parseSeq n (pre ++ [bad]) := by
  have hps : parseSeq n pre = (pre.foldl applyArg n, none) := parseSeq_ok n pre hpre
  have herr : (parseItem (pre.foldl applyArg n) bad).2.isSome = true := by
    rw [parseItem_err, hbad]
    rfl
  rcases hpi : parseItem (pre.foldl applyArg n) bad with ⟨n2, e⟩
  cases e with
  | none => rw [hpi] at herr; simp at herr
  | some e1 =>
      have h1 : parseSeq n (pre ++ bad :: post) = (n2, some e1) := by
        rw [parseSeq_append, hps]
        show (match parseItem (pre.foldl applyArg n) bad with
              | (m, none) => parseSeq m post
              | (m, some e) => (m, some e)) = (n2, some e1)
        rw [hpi]
      have h2 : parseSeq n (pre ++ [bad]) = (n2, some e1) := by
        rw [parseSeq_append, hps]
        show (match parseItem (pre.foldl applyArg n) bad with
              | (m, none) => parseSeq m []
              | (m, some e) => (m, some e)) = (n2, some e1)
        rw [hpi]
      cases e1 with
      | invalidArgument s =>
          refine ⟨⟨s, by rw [h1]⟩, by simp [h1, hpi], by rw [h1, h2]⟩

/-- Witness for C5 with a valid prefix, a `null` nested in an array, and
trailing arguments that are never processed. -/
theorem invalid_argument_aborts_witness :
    argsOk samplePre = true ∧ argOk sampleBad = false ∧
    parseSeq (create "div") (samplePre ++ sampleBad :: samplePost) =
      parseSeq (create "div") (samplePre ++ [sampleBad]) :=
  ⟨by decide, by decide,
    (invalid_argument_aborts (create "div") samplePre sampleBad samplePost
      (by decide) (by decide)).2.2⟩

/-- C6: the string rendering of a tagged builder is `<`, the tag, one
fragment per stored attribute — a space and the name, plus `="value"` only
when the value is not the no-value sentinel — then `/>` when self-closing,
else `>`, the rendered children, and `</tag>`; in particular after
`registry.tags("body", "br/")`, `registry.body(registry.br())` renders to
`<body><br/></body>`. -/
theorem open_tag_format :
    (∀ (t : String) (sc : Bool) (attrs : List (String × AttrVal)) (ch : List Child),
      nodeHtml (Node.mk false t sc attrs ch) =
        "<" ++ t ++ String.join (attrs.map attrText) ++
          (if sc then "/>"
           else ">" ++ String.join (childrenHtml ch) ++ ("</" ++ t ++ ">"))) ∧
    nodeHtml (invoke (create "body") [Arg.handle (create "br/")]).1 =
      "<body><br/></body>" := by
  constructor
  · intro t sc attrs ch
    cases sc with
    | true =>
        show String.join (closeTagArr t true (openTagArr t true attrs ++ [])) = _
        simp [closeTagArr, openTagArr, stringJoin_cons, stringJoin_append,
          stringJoin_nil, join_attrFrags, String.append_assoc]
    | false =>
        show String.join
            (closeTagArr t false (openTagArr t false attrs ++ childrenHtml ch)) = _
        simp [closeTagArr, openTagArr, stringJoin_cons, stringJoin_append,
          stringJoin_nil, join_attrFrags, String.append_assoc]
  · decide

/-- C7: a self-closing builder renders with no inner content and no closing
delimiter in both renderers regardless of the children it holds, and
supplying children to it is accepted without error — classification fails
exactly when a `null`/`undefined` argument occurs, never because the
receiver is self-closing. -/
theorem self_closing_drops_children :
    (∀ (f : Bool) (t : String) (attrs : List (String × AttrVal)) (ch : List Child),
      nodeHtml (Node.mk f t true attrs ch) = nodeHtml (Node.mk f t true attrs []) ∧
      nodeDom (Node.mk f t true attrs ch) = nodeDom (Node.mk f t true attrs [])) ∧
    (∀ (n : Node) (args : List Arg), (parseSeq n args).2.isSome = !argsOk args) := by
  constructor
  · intro f t attrs ch
    cases f <;> exact ⟨rfl, rfl⟩
  · exact parseSeq_err

/-- C8: a fragment builder's `html()` is exactly the concatenation of its
rendered children with no delimiters of its own, and its `dom()` is a
document-fragment container carrying only the children — no tag and no
attributes are set on it. -/
theorem fragment_renders_children_only :
    freshFragment.isFragment = true ∧ freshFragment.selfClosing = false ∧
    ∀ (t : String) (attrs : List (String × AttrVal)) (ch : List Child),
      nodeHtml (Node.mk true t false attrs ch) = String.join (childrenHtml ch) ∧
      nodeDom (Node.mk true t false attrs ch) = DomNode.fragment (childrenDom ch) :=
  ⟨rfl, rfl, fun _ _ _ => ⟨rfl, rfl⟩⟩

theorem getN_setN_ne (st : Store) (h1 h2 : Nat) (n : Node) (hne : h2 ≠ h1) :
    (st.setN h1 n).getN h2 = st.getN h2 := by
  show (if h2 = h1 then n else st.mem h2) = st.mem h2
  rw [if_neg hne]

theorem getN_alloc_self (st : Store) (n : Node) :
    (st.alloc n).1.getN (st.alloc n).2 = n := by
  show (if st.next = st.next then n else st.mem st.next) = n
  rw [if_pos rfl]

theorem getN_alloc_ne (st : Store) (n : Node) (h : Nat) (hne : h ≠ st.next) :
    (st.alloc n).1.getN h = st.getN h := by
  show (if h = st.next then n else st.mem h) = st.mem h
  rw [if_neg hne]

/-- C9: each access of a registered tag accessor and each access of the
fragment accessor allocates a brand-new builder behind a brand-new handle;
two accesses share no state, so invoking one handle — with any arguments —
never changes what the other renders. -/
theorem accessor_allocates_fresh (st : Store) (t : String) (sc : Bool)
    (args : List Arg) :
    let r1 := accessTagGetter st t sc
    let r2 := accessTagGetter r1.1 t sc
    let f1 := accessFragGetter st
    let f2 := accessFragGetter f1.1
    r1.2 ≠ r2.2 ∧
    r2.1.getN r1.2 = freshElement t sc ∧
    r2.1.getN r2.2 = freshElement t sc ∧
    htmlH (invokeH r2.1 r1.2 args).1 r2.2 = htmlH r2.1 r2.2 ∧
    htmlH (invokeH r2.1 r2.2 args).1 r1.2 = htmlH r2.1 r1.2 ∧
    f1.2 ≠ f2.2 ∧
    f2.1.getN f1.2 = freshFragment ∧
    f2.1.getN f2.2 = freshFragment ∧
    htmlH (invokeH f2.1 f1.2 args).1 f2.2 = htmlH f2.1 f2.2 :=
  ⟨by show st.next ≠ st.next + 1; omega,
   by
    rw [show (accessTagGetter (accessTagGetter st t sc).1 t sc).1.getN
          (accessTagGetter st t sc).2 =
        ((accessTagGetter st t sc).1.alloc (freshElement t sc)).1.getN st.next from rfl,
      getN_alloc_ne _ _ _ (by show st.next ≠ st.next + 1; omega)]
    exact getN_alloc_self st (freshElement t sc),
   by exact getN_alloc_self (accessTagGetter st t sc).1 (freshElement t sc),
   by
    show nodeHtml ((((accessTagGetter (accessTagGetter st t sc).1 t sc).1).setN
        st.next _).getN (st.next + 1)) = _
    rw [getN_setN_ne _ _ _ _ (by omega)]
    rfl,
   by
    show nodeHtml ((((accessTagGetter (accessTagGetter st t sc).1 t sc).1).setN
        (st.next + 1) _).getN st.next) = _
    rw [getN_setN_ne _ _ _ _ (by omega)]
    rfl,
   by show st.next ≠ st.next + 1; omega,
   by
    rw [show (accessFragGetter (accessFragGetter st).1).1.getN
          (accessFragGetter st).2 =
        ((accessFragGetter st).1.alloc freshFragment).1.getN st.next from rfl,
      getN_alloc_ne _ _ _ (by show st.next ≠ st.next + 1; omega)]
    exact getN_alloc_self st freshFragment,
   by exact getN_alloc_self (accessFragGetter st).1 freshFragment,
   by
    show nodeHtml ((((accessFragGetter (accessFragGetter st).1).1).setN
        st.next _).getN (st.next + 1)) = _
    rw [getN_setN_ne _ _ _ _ (by omega)]
    rfl⟩

/-- C10: neither renderer mutates the builder: the state-threaded renderers
return the rendered output together with the unchanged builder, so repeated
`html()` calls — also after a `dom()` — yield the same string for the same
state. -/
theorem render_does_not_mutate (n : Node) :
    nodeHtmlM n = (nodeHtml n, n) ∧
    nodeDomM n = (nodeDom n, n) ∧
    (nodeHtmlM (nodeHtmlM n).2).1 = (nodeHtmlM n).1 ∧
    (nodeHtmlM (nodeDomM n).2).1 = (nodeHtmlM n).1 :=
  ⟨nodeHtmlM_eq n, nodeDomM_eq n, by simp [nodeHtmlM_eq],
   by simp [nodeHtmlM_eq, nodeDomM_eq]⟩
